import Mathlib

/-!
Shallow embedding of the GitLab multilingual checker (`src/app.py`) and
verification of the frozen claims about it.

Modelling conventions:
* A repository snapshot is a list of files (`FSFile`): each file has its
  directory path relative to the snapshot root (as a list of directory
  components), a file name, and `content : Option String` — `none` models a
  file whose read raises an exception (the Python code opens files inside
  `try`/`except` blocks), `some c` a successful read yielding `c`.
* Python string operations are modelled on the underlying character lists:
  `needle in hay` is infix containment, `s.endswith(t)` is suffix testing,
  `s.lower()` maps `Char.toLower` over the characters (the strings the
  program lowers are ASCII where case matters; Indic scripts are caseless).
* The regular expressions of `analyze_i18n_patterns` use only literals,
  `\s+`, `\s*`, `.` and `.*` (with `re.IGNORECASE`); they are embedded by a
  small executable matcher over exactly those constructs.  Downstream logic
  uses only which subtypes matched (non-emptiness of the `findall` lists),
  so the per-file result is modelled as the list of categories paired with
  their matched subtypes, omitting empty ones exactly as the code does.
-/

namespace GitlabMC

/-- Python `needle in hay` on strings: substring (infix) containment. -/
def pyIn (needle hay : String) : Bool := decide (needle.data <:+: hay.data)

/-- Python `s.endswith(t)`: suffix test. -/
def pyEndsWith (s t : String) : Bool := decide (t.data <:+ s.data)

/-- Python `s.startswith(t)`: prefix test. -/
def pyStartsWith (s t : String) : Bool := decide (t.data <+: s.data)

/-- Python `s.lower()` (ASCII case folding, which is all the program needs). -/
def pyLower (s : String) : String := ⟨s.data.map Char.toLower⟩

/-- A file of the repository snapshot: directory components relative to the
snapshot root, file name, and read result (`none` = reading raises). -/
structure FSFile where
  path : List String
  name : String
  content : Option String
deriving DecidableEq

/-- A repository snapshot: the files of the fetched tree. -/
abbrev FileSystem := List FSFile

/-! ## `detect_languages_in_content` (src/app.py lines 194–224) -/

/-- The fixed language-indicator catalog of `detect_languages_in_content`:
18 entries (English + 17 Indic languages), each with its list of lexical
indicators (ISO-like code, native name, common words in native script). -/
def language_indicators : List (String × List String) :=
  [ ("english", ["en", "english", "hello", "thank you", "please", "welcome", "goodbye"])
  , ("hindi", ["hi", "हिंदी", "नमस्ते", "धन्यवाद", "कृपया", "स्वागत", "अलविदा"])
  , ("bengali", ["bn", "বাংলা", "নমস্কার", "ধন্যবাদ", "দয়া করে", "স্বাগতম"])
  , ("tamil", ["ta", "தமிழ்", "வணக்கம்", "நன்றி", "தயவுசெய்து", "வரவேற்கிறோம்"])
  , ("telugu", ["te", "తెలుగు", "నమస్కారం", "ధన్యవాదాలు", "దయచేసి", "స్వాగతం"])
  , ("marathi", ["mr", "मराठी", "नमस्कार", "धन्यवाद", "कृपया", "स्वागत"])
  , ("gujarati", ["gu", "ગુજરાતી", "નમસ્તે", "આભાર", "કૃપા કરીને", "સ્વાગત"])
  , ("kannada", ["kn", "ಕನ್ನಡ", "ನಮಸ್ತೆ", "ಧನ್ಯವಾದಗಳು", "ದಯವಿಟ್ಟು", "ಸ್ವಾಗತ"])
  , ("malayalam", ["ml", "മലയാളം", "നമസ്തേ", "നന്ദി", "ദയവായി", "സ്വാഗതം"])
  , ("punjabi", ["pa", "ਪੰਜਾਬੀ", "ਸਤ ਸ੍ਰੀ ਅਕਾਲ", "ਧੰਨਵਾਦ", "ਕਿਰਪਾ ਕਰਕੇ"])
  , ("oriya", ["or", "ଓଡ଼ିଆ", "ନମସ୍କାର", "ଧନ୍ୟବାଦ", "ଦୟାକରି", "ସ୍ୱାଗତ"])
  , ("assamese", ["as", "অসমীয়া", "নমস্কাৰ", "ধন্যবাদ", "অনুগ্ৰহ কৰি"])
  , ("urdu", ["ur", "اردو", "آداب", "شکریہ", "براہ کرم", "خوش آمدید"])
  , ("sanskrit", ["sa", "संस्कृत", "नमस्ते", "धन्यवाद", "कृपया"])
  , ("kashmiri", ["ks", "कॉशुर", "नमस्कार", "शुक्रिया", "मेहरबानी"])
  , ("nepali", ["ne", "नेपाली", "नमस्ते", "धन्यवाद", "कृपया", "स्वागत"])
  , ("sinhala", ["si", "සිංහල", "ආයුබෝවන්", "ස්තූතියි", "කරුණාකර"]) ]

/-- The language keys of the catalog. -/
def languageKeys : List String := language_indicators.map Prod.fst

/-- `detect_languages_in_content`: a language is detected when any of its
indicators occurs as a substring of the lowercased content.  The Python
function returns a set; the embedding returns the sublist of catalog keys
that are detected (the catalog keys are pairwise distinct, so this list
represents the set faithfully, including its cardinality). -/
def detect_languages_in_content (content : String) : List String :=
  (language_indicators.filter
    (fun li => li.2.any (fun ind => pyIn ind (pyLower content)))).map Prod.fst

/-! ## Mini regular expressions for `analyze_i18n_patterns`

The patterns in `src/app.py` lines 119–140 use only literal characters,
`\s+`, `\s*`, `.` (any character but newline) and `.*`, all matched with
`re.IGNORECASE`.  `RTok` is exactly this construct set. -/

inductive RTok where
  | lit (c : Char)
  | wsPlus
  | wsStar
  | anyChar
  | anyStar
deriving DecidableEq

/-- A pattern: a sequence of regex tokens. -/
abbrev Regex := List RTok

/-- Python `\s` (ASCII range, which is all the analyzed contents need). -/
def pyIsSpace (c : Char) : Bool :=
  decide (c = ' ' ∨ c = '\t' ∨ c = '\n' ∨ c = '\x0d' ∨ c = '\x0b' ∨ c = '\x0c')

/-- Backtracking matcher step: does the token sequence match some prefix of
the character list?  Case-insensitive on literals (re.IGNORECASE).  Each
recursive call strictly decreases `2 * cs.length + ts.length`, so the
recursion is driven by a fuel counter that starts above this measure (see
`matchHere`) and is never exhausted before a base case is reached; the
`fuel = 0` branch is unreachable.  The fuel only makes the recursion
structural, so the definition evaluates by kernel reduction. -/
def matchRun : Nat → Regex → List Char → Bool
  | 0, _, _ => false
  | _ + 1, [], _ => true
  | _ + 1, .lit _ :: _, [] => false
  | fuel + 1, .lit c :: ts, x :: xs =>
      (Char.toLower x = Char.toLower c) && matchRun fuel ts xs
  | _ + 1, .wsPlus :: _, [] => false
  | fuel + 1, .wsPlus :: ts, x :: xs => pyIsSpace x && matchRun fuel (.wsStar :: ts) xs
  | fuel + 1, .wsStar :: ts, [] => matchRun fuel ts []
  | fuel + 1, .wsStar :: ts, x :: xs =>
      matchRun fuel ts (x :: xs) || (pyIsSpace x && matchRun fuel (.wsStar :: ts) xs)
  | _ + 1, .anyChar :: _, [] => false
  | fuel + 1, .anyChar :: ts, x :: xs => (x ≠ '\n') && matchRun fuel ts xs
  | fuel + 1, .anyStar :: ts, [] => matchRun fuel ts []
  | fuel + 1, .anyStar :: ts, x :: xs =>
      matchRun fuel ts (x :: xs) || ((x ≠ '\n') && matchRun fuel (.anyStar :: ts) xs)

/-- Does the token sequence match some prefix of the character list? -/
def matchHere (ts : Regex) (cs : List Char) : Bool :=
  matchRun (2 * cs.length + ts.length + 1) ts cs

/-- Does the pattern match anywhere in the character list?  This is the
non-emptiness of Python `re.findall(pattern, content)` for the pattern
constructs above (none of the patterns can match across a newline, and
`re.MULTILINE` only affects anchors, which no pattern uses). -/
def searchHere (r : Regex) : List Char → Bool
  | [] => matchHere r []
  | x :: xs => matchHere r (x :: xs) || searchHere r xs

/-- Did the pattern match somewhere in the string? -/
def regexFound (r : Regex) (s : String) : Bool := searchHere r s.data

/-- A literal regex fragment. -/
def rlit (s : String) : Regex := s.data.map RTok.lit

/-- The first gettext import pattern, `import\s+gettext`. -/
def reGettextImport : Regex := rlit "import" ++ [RTok.wsPlus] ++ rlit "gettext"

/-- The second gettext import pattern, `from\s+gettext\s+import`. -/
def reGettextFromImport : Regex :=
  rlit "from" ++ [RTok.wsPlus] ++ rlit "gettext" ++ [RTok.wsPlus] ++ rlit "import"

/-- The subtypes of the `gettext` pattern category. -/
def gettextSubtypes : List (String × List Regex) :=
  [ ("imports", [reGettextImport, reGettextFromImport])
  , ("functions", [rlit "_(", rlit "gettext(", rlit "ngettext("])
  , ("setup",
      [ rlit "gettext." ++ [RTok.anyChar] ++ rlit "(" ++ [RTok.anyChar] ++ rlit ")"
      , rlit ".bindtextdomain("
      , rlit ".textdomain(" ]) ]

/-- The fixed i18n pattern taxonomy of `analyze_i18n_patterns`
(category → subtype → patterns), in declaration order. -/
def i18nPatterns : List (String × List (String × List Regex)) :=
  [ ("gettext", gettextSubtypes)
  , ("streamlit_i18n",
      [ ("imports",
          [ rlit "import" ++ [RTok.wsPlus] ++ rlit "streamlit_i18n"
          , rlit "from" ++ [RTok.wsPlus] ++ rlit "streamlit_i18n" ])
      , ("functions", [rlit "i18n(", rlit ".translate(", rlit ".t("]) ])
  , ("babel",
      [ ("imports",
          [ rlit "import" ++ [RTok.wsPlus] ++ rlit "babel"
          , rlit "from" ++ [RTok.wsPlus] ++ rlit "babel" ])
      , ("functions", [rlit "Locale(", rlit "format_currency(", rlit "format_date("]) ])
  , ("custom_translation",
      [ ("dictionaries",
          [ rlit "translations" ++ [RTok.wsStar, RTok.lit '='] ++ [RTok.wsStar, RTok.lit '\x7b']
          , rlit "languages" ++ [RTok.wsStar, RTok.lit '='] ++ [RTok.wsStar, RTok.lit '\x7b']
          , rlit "TRANSLATIONS" ++ [RTok.wsStar, RTok.lit '='] ])
      , ("functions", [rlit "translate(", rlit "get_text(", rlit "tr("]) ])
  , ("language_detection",
      [ ("patterns",
          [ rlit "st.selectbox" ++ [RTok.anyStar] ++ rlit "lang"
          , rlit "language" ++ [RTok.anyStar] ++ rlit "select"
          , rlit "locale"
          , rlit "LANG" ]) ]) ]

/-- The subtype names of a category whose pattern list matched the content
at least once (the subtypes kept by `analyze_i18n_patterns`). -/
def subtypesFound (subs : List (String × List Regex)) (c : String) : List String :=
  (subs.filter (fun sp => sp.2.any (fun r => regexFound r c))).map Prod.fst

/-- `analyze_i18n_patterns` (src/app.py lines 117–163): for a read result
(`none` = the read raised, the function returns `{}`), the categories with
at least one matching subtype, each with its matching subtypes; empty
categories and subtypes are omitted, in declaration order. -/
def analyze_i18n_patterns (content : Option String) : List (String × List String) :=
  match content with
  | none => []
  | some c =>
      (i18nPatterns.map (fun cp => (cp.1, subtypesFound cp.2 c))).filter
        (fun cr => !cr.2.isEmpty)

/-! ## `find_streamlit_files` (src/app.py lines 96–115) -/

/-- Is a file reached by the walk of `find_streamlit_files`?  Its directory
components must not start with `.` and must not be `_pycache_` or
`node_modules`. -/
def visibleToDiscovery (f : FSFile) : Bool :=
  f.path.all (fun d =>
    decide (¬ pyStartsWith d "." = true ∧ d ≠ "_pycache_" ∧ d ≠ "node_modules"))

/-- Is a file selected by `find_streamlit_files`?  It must be reached by the
walk, end in `.py`, be readable, and its content must contain `streamlit`
(case-insensitively) or `st.` (case-sensitively). -/
def isStreamlitFile (f : FSFile) : Bool :=
  visibleToDiscovery f && pyEndsWith f.name ".py" &&
    match f.content with
    | none => false
    | some c => pyIn "streamlit" (pyLower c) || pyIn "st." c

/-- `find_streamlit_files`: the candidate files, in traversal order. -/
def find_streamlit_files (fs : FileSystem) : List FSFile :=
  fs.filter isStreamlitFile

/-! ## `find_translation_files` (src/app.py lines 165–192) -/

/-- The five fixed translation-file buckets, in the order of the
`if`/`elif` chain of `find_translation_files`. -/
inductive Bucket where
  | po | mo | jsonT | yamlT | props
deriving DecidableEq

/-- The keyword qualification for `.json`/`.yml`/`.yaml` files: the file
name must contain one of `lang`, `translation`, `locale`, `i18n`
(case-insensitively). -/
def hasTransKeyword (name : String) : Bool :=
  ["lang", "translation", "locale", "i18n"].any (fun k => pyIn k (pyLower name))

/-- The `if`/`elif` chain of `find_translation_files`: the bucket a file
name is assigned to, if any. -/
def classifyTranslation (name : String) : Option Bucket :=
  if pyEndsWith name ".po" then some .po
  else if pyEndsWith name ".mo" then some .mo
  else if pyEndsWith name ".json" ∧ hasTransKeyword name then some .jsonT
  else if (pyEndsWith name ".yml" ∨ pyEndsWith name ".yaml") ∧ hasTransKeyword name then
    some .yamlT
  else if pyEndsWith name ".properties" then some .props
  else none

/-- Is a file reached by the walk of `find_translation_files`?  Only hidden
directories are pruned there. -/
def visibleToTranslationWalk (f : FSFile) : Bool :=
  f.path.all (fun d => ! pyStartsWith d ".")

/-- The result of `find_translation_files`: one file list per bucket. -/
structure TransFiles where
  po_files : List FSFile
  mo_files : List FSFile
  json_translations : List FSFile
  yaml_translations : List FSFile
  properties_files : List FSFile
deriving DecidableEq

/-- The files of a given bucket. -/
def TransFiles.bucket (t : TransFiles) : Bucket → List FSFile
  | .po => t.po_files
  | .mo => t.mo_files
  | .jsonT => t.json_translations
  | .yamlT => t.yaml_translations
  | .props => t.properties_files

/-- `find_translation_files`: each bucket collects, in traversal order, the
walked files its `elif` branch accepts. -/
def find_translation_files (fs : FileSystem) : TransFiles where
  po_files := fs.filter
    (fun f => visibleToTranslationWalk f && decide (classifyTranslation f.name = some .po))
  mo_files := fs.filter
    (fun f => visibleToTranslationWalk f && decide (classifyTranslation f.name = some .mo))
  json_translations := fs.filter
    (fun f => visibleToTranslationWalk f && decide (classifyTranslation f.name = some .jsonT))
  yaml_translations := fs.filter
    (fun f => visibleToTranslationWalk f && decide (classifyTranslation f.name = some .yamlT))
  properties_files := fs.filter
    (fun f => visibleToTranslationWalk f && decide (classifyTranslation f.name = some .props))

/-- `any(translation_files.values())`: is any bucket non-empty? -/
def anyTranslationFiles (t : TransFiles) : Bool :=
  !t.po_files.isEmpty || !t.mo_files.isEmpty || !t.json_translations.isEmpty ||
    !t.yaml_translations.isEmpty || !t.properties_files.isEmpty

/-! ## `analyze_requirements_file` (src/app.py lines 226–252) -/

/-- The fixed catalog of recognized i18n package identifiers. -/
def i18n_packages_list : List String :=
  [ "streamlit-i18n", "babel", "gettext", "python-gettext"
  , "flask-babel", "django-rosetta", "polib", "translate" ]

/-- The fixed list of manifest file names checked in the repository root. -/
def manifest_names : List String :=
  ["requirements.txt", "requirements.in", "pyproject.toml", "setup.py", "Pipfile"]

/-- Root-level lookup of a file by name (`Path(directory) / req_file`):
a hit requires the file to sit directly in the snapshot root. -/
def rootLookup (fs : FileSystem) (m : String) : Option FSFile :=
  fs.find? (fun f => decide (f.path = [] ∧ f.name = m))

/-- The packages one manifest contributes: if the manifest is present and
readable, every catalogued package appearing case-insensitively in its
content (once per package, in catalog order); a present but unreadable
manifest contributes none (the `except` clause skips to the next manifest). -/
def manifestPackages (fs : FileSystem) (m : String) : List String :=
  match rootLookup fs m with
  | none => []
  | some f =>
      match f.content with
      | none => []
      | some c => i18n_packages_list.filter (fun p => pyIn (pyLower p) (pyLower c))

/-- The result of `analyze_requirements_file`. -/
structure ReqReport where
  requirements_files : List String
  i18n_packages : List String
deriving DecidableEq

/-- `analyze_requirements_file`: the present manifests (note: a manifest is
recorded as present before its read is attempted, so an unreadable manifest
still appears here) and the concatenation of the per-manifest package
contributions, in manifest order. -/
def analyze_requirements_file (fs : FileSystem) : ReqReport where
  requirements_files := manifest_names.filter (fun m => (rootLookup fs m).isSome)
  i18n_packages := manifest_names.flatMap (manifestPackages fs)

/-! ## `generate_multilingual_report` (src/app.py lines 254–333) -/

/-- The languages one candidate file contributes: the second read of the
file (`try`/`except`, lines 281–287) followed by `detect_languages_in_content`;
an unreadable file contributes none. -/
def fileLanguages (f : FSFile) : List String :=
  match f.content with
  | none => []
  | some c => detect_languages_in_content c

/-- `all_languages`: the union of the per-candidate-file detections, as the
sublist of catalog keys detected in at least one candidate file.  The
Python value is a set; catalog keys are pairwise distinct, so the length of
this list is the set's cardinality. -/
def allLanguages (candidates : List FSFile) : List String :=
  languageKeys.filter (fun l => candidates.any (fun f => decide (l ∈ fileLanguages f)))

/-- The assembled analysis report.  File paths are stored relative to the
snapshot root; `FSFile` paths are snapshot-relative already, so the
`relative_to` rewriting of the Python code is the identity here. -/
structure Report where
  is_multilingual : Bool
  confidence_score : Nat
  streamlit_files : List FSFile
  i18n_patterns : List (FSFile × List (String × List String))
  translation_files : TransFiles
  detected_languages : List String
  requirements_analysis : ReqReport
  recommendations : List String

/-- The four standard improvement suggestions emitted when the repository
is classified as not multilingual. -/
def recsNotMultilingual : List String :=
  [ "Consider implementing internationalization for English and Indic languages using libraries like streamlit-i18n or gettext"
  , "Add language selection widget with English and Indic language options"
  , "Create translation files for target Indic languages (Hindi, Bengali, Tamil, etc.)"
  , "Consider using Unicode fonts that support Indic scripts" ]

/-- The dependency-documentation suggestion. -/
def recDocumentDeps : String :=
  "Document your i18n dependencies in requirements.txt"

/-- The translation-format suggestion. -/
def recTranslationFormats : String :=
  "Consider using standard translation file formats (.po, .json) for Indic languages"

/-- The two suggestions always emitted for a multilingual repository. -/
def recsAlwaysMultilingual : List String :=
  [ "Ensure proper Unicode support for Indic scripts in your application"
  , "Test your application with different Indic language inputs" ]

/-- `generate_multilingual_report`: discovery, per-candidate pattern and
language analysis, translation-file classification, manifest inspection,
additive scoring with clamp, classification, and recommendations. -/
def generate_multilingual_report (fs : FileSystem) : Report :=
  let streamlit_files := find_streamlit_files fs
  let all_patterns :=
    (streamlit_files.map (fun f => (f, analyze_i18n_patterns f.content))).filter
      (fun p => !p.2.isEmpty)
  let all_languages := allLanguages streamlit_files
  let translation_files := find_translation_files fs
  let requirements_analysis := analyze_requirements_file fs
  let score : Nat :=
    (if all_patterns.isEmpty then 0 else 40)
    + (if anyTranslationFiles translation_files then 30 else 0)
    + (if requirements_analysis.i18n_packages.isEmpty then 0 else 20)
    + (if all_languages.length > 1 then 10 else 0)
  let is_multilingual := decide (score ≥ 30)
  let recommendations :=
    if is_multilingual = false then recsNotMultilingual
    else
      (if requirements_analysis.i18n_packages.isEmpty then [recDocumentDeps] else [])
      ++ (if anyTranslationFiles translation_files then [] else [recTranslationFormats])
      ++ recsAlwaysMultilingual
  { is_multilingual := is_multilingual
  , confidence_score := min score 100
  , streamlit_files := streamlit_files
  , i18n_patterns := all_patterns
  , translation_files := translation_files
  , detected_languages := all_languages
  , requirements_analysis := requirements_analysis
  , recommendations := recommendations }

/-! ## `clone_gitlab_repo` (src/app.py lines 20–94)

The network and the subprocess are modelled by an environment that fixes
the outcome of each attempt; the embedding returns the success boolean and
the trace of attempts, in order. -/

/-- Outcome of the `git clone` subprocess attempt: exit code 0; a swallowed
failure (non-zero exit, timeout, missing tool, OSError); or an exception
escaping to the outermost handler (which reports and returns `False`). -/
inductive CloneOutcome where
  | success | failure | fatalError
deriving DecidableEq

/-- Outcome of one archive candidate request: HTTP 200 with the payload
saved and extracted; HTTP 200 but an exception while saving/extracting
(`except ... continue`); a non-200 status; or a request exception. -/
inductive ArchiveOutcome where
  | ok200 | ok200ExtractFail | httpOther | reqError
deriving DecidableEq

/-- Did the candidate's HTTP response have status 200? -/
def responds200 : ArchiveOutcome → Bool
  | .ok200 => true
  | .ok200ExtractFail => true
  | .httpOther => false
  | .reqError => false

/-- The fixed outcomes of the external world for one fetch run. -/
structure FetchEnv where
  cloneResult : CloneOutcome
  archive : String → ArchiveOutcome

/-- One attempt of the fetcher, as recorded in its trace. -/
inductive Attempt where
  | gitClone (url : String)
  | httpGet (url : String)
deriving DecidableEq

/-- URL normalization for the clone attempt: append `.git` if absent. -/
def normalizeGitUrl (url : String) : String :=
  if pyEndsWith url ".git" then url else url ++ ".git"

/-- Python `s.rstrip('/')`. -/
def stripTrailingSlashes (url : String) : String :=
  ⟨(url.data.reverse.dropWhile (fun c => c = '/')).reverse⟩

/-- Python `s.split('/')` on the character list: split at every `/`,
keeping empty pieces (structural, so it evaluates by kernel reduction). -/
def splitSlashAux : List Char → List Char → List String
  | [], acc => [⟨acc.reverse⟩]
  | c :: rest, acc =>
      if c = '/' then ⟨acc.reverse⟩ :: splitSlashAux rest []
      else splitSlashAux rest (c :: acc)

/-- `repo_url.rstrip('/').split('/')`. -/
def urlParts (url : String) : List String :=
  splitSlashAux (stripTrailingSlashes url).data []

/-- Python `'/'.join(parts)`. -/
def joinSlash : List String → String
  | [] => ""
  | [s] => s
  | s :: rest => s ++ "/" ++ joinSlash rest

/-- Does the URL qualify for the archive fallback?
`'//' in repo_url and ('gitlab' in repo_url.lower() or 'git' in repo_url.lower())`. -/
def archiveQualifies (url : String) : Bool :=
  pyIn "//" url && (pyIn "gitlab" (pyLower url) || pyIn "git" (pyLower url))

/-- The four declared archive candidate URLs, in declared order: main zip
archive, master zip archive, main repository-archive endpoint, master
repository-archive endpoint. -/
def possible_urls (url : String) : List String :=
  let parts := urlParts url
  let dom := joinSlash (parts.take (parts.length - 2))
  let owner := parts.getD (parts.length - 2) ""
  let repo0 := parts.getD (parts.length - 1) ""
  let repo : String :=
    if pyEndsWith repo0 ".git" then ⟨repo0.data.take (repo0.data.length - 4)⟩ else repo0
  [ dom ++ "/" ++ owner ++ "/" ++ repo ++ "/-/archive/main/" ++ repo ++ "-main.zip"
  , dom ++ "/" ++ owner ++ "/" ++ repo ++ "/-/archive/master/" ++ repo ++ "-master.zip"
  , dom ++ "/" ++ owner ++ "/" ++ repo ++ "/repository/archive.zip?ref=main"
  , dom ++ "/" ++ owner ++ "/" ++ repo ++ "/repository/archive.zip?ref=master" ]

/-- The `for zip_url in possible_urls` loop: request each candidate in
order; a 200 response that saves and extracts returns `True`; every other
outcome (200 with extraction error, non-200 status, request exception) is
swallowed and the next candidate is tried. -/
def tryArchives (env : FetchEnv) : List String → Bool × List Attempt
  | [] => (false, [])
  | u :: rest =>
      match env.archive u with
      | .ok200 => (true, [.httpGet u])
      | _ =>
          let r := tryArchives env rest
          (r.1, .httpGet u :: r.2)

/-- `clone_gitlab_repo`: the direct clone attempt first; on swallowed clone
failure, the archive fallback when the URL qualifies and splits into at
least two parts; otherwise `False`.  Returns the success boolean and the
attempt trace. -/
def clone_gitlab_repo (url : String) (env : FetchEnv) : Bool × List Attempt :=
  let t0 := [Attempt.gitClone (normalizeGitUrl url)]
  match env.cloneResult with
  | .success => (true, t0)
  | .fatalError => (false, t0)
  | .failure =>
      if archiveQualifies url ∧ (urlParts url).length ≥ 2 then
        let r := tryArchives env (possible_urls url)
        (r.1, t0 ++ r.2)
      else (false, t0)

/-! ## Shared lemmas -/

/-- Either branch of a natural-number `if`. -/
lemma natIte_cases (p : Prop) [Decidable p] (x y : Nat) :
    (if p then x else y) = x ∨ (if p then x else y) = y := by
  split_ifs
  · exact Or.inl rfl
  · exact Or.inr rfl

/-- The clamped four-contribution sum takes only the eleven multiples of 10
in `[0, 100]`, and crossing 30 is unaffected by the clamp. -/
lemma clampScore_cases (a b c d : Nat) (ha : a = 0 ∨ a = 40) (hb : b = 0 ∨ b = 30)
    (hc : c = 0 ∨ c = 20) (hd : d = 0 ∨ d = 10) :
    min (a + b + c + d) 100 ∈ ([0, 10, 20, 30, 40, 50, 60, 70, 80, 90, 100] : List Nat) ∧
      (30 ≤ a + b + c + d ↔ 30 ≤ min (a + b + c + d) 100) := by
  rcases ha with rfl | rfl <;> rcases hb with rfl | rfl <;> rcases hc with rfl | rfl <;>
    rcases hd with rfl | rfl <;> decide

/-- Membership characterization of `detect_languages_in_content`. -/
lemma mem_detect_iff (content lang : String) :
    lang ∈ detect_languages_in_content content ↔
      ∃ inds, (lang, inds) ∈ language_indicators ∧
        ∃ ind ∈ inds, pyIn ind (pyLower content) = true := by
  constructor
  · intro h
    obtain ⟨li, hmem, rfl⟩ := List.mem_map.1 h
    obtain ⟨hcat, hp⟩ := List.mem_filter.1 hmem
    obtain ⟨ind, hind, hfind⟩ := List.any_eq_true.1 hp
    exact ⟨li.2, hcat, ind, hind, hfind⟩
  · rintro ⟨inds, hcat, ind, hind, hfind⟩
    exact List.mem_map.2 ⟨(lang, inds),
      List.mem_filter.2 ⟨hcat, List.any_eq_true.2 ⟨ind, hind, hfind⟩⟩, rfl⟩

/-! ## Claim C1 -/

/-- C1: for every analyzed repository, the confidence score equals the
clamp to `[0,100]` of the sum of four independent contributions (40 for a
detected pattern category, 30 for a non-empty translation bucket, 20 for a
recognized i18n package, 10 for more than one detected language key), hence
it is one of `{0,10,…,100}`, and `is_multilingual` holds iff the confidence
score is at least 30. -/
theorem c1_confidence_score_structure (fs : FileSystem) :
    (generate_multilingual_report fs).confidence_score =
      min ((if (generate_multilingual_report fs).i18n_patterns.isEmpty then 0 else 40)
        + (if anyTranslationFiles (generate_multilingual_report fs).translation_files
            then 30 else 0)
        + (if (generate_multilingual_report fs).requirements_analysis.i18n_packages.isEmpty
            then 0 else 20)
        + (if (generate_multilingual_report fs).detected_languages.length > 1
            then 10 else 0)) 100
    ∧ (generate_multilingual_report fs).confidence_score ∈
        ([0, 10, 20, 30, 40, 50, 60, 70, 80, 90, 100] : List Nat)
    ∧ ((generate_multilingual_report fs).is_multilingual = true ↔
        30 ≤ (generate_multilingual_report fs).confidence_score) := by
  have h := clampScore_cases
    (if (generate_multilingual_report fs).i18n_patterns.isEmpty then 0 else 40)
    (if anyTranslationFiles (generate_multilingual_report fs).translation_files then 30 else 0)
    (if (generate_multilingual_report fs).requirements_analysis.i18n_packages.isEmpty
      then 0 else 20)
    (if (generate_multilingual_report fs).detected_languages.length > 1 then 10 else 0)
    (natIte_cases _ 0 40)
    (Or.symm (natIte_cases _ 30 0))
    (natIte_cases _ 0 20)
    (Or.symm (natIte_cases _ 10 0))
  refine ⟨rfl, h.1, Iff.trans (decide_eq_true_iff) h.2⟩

/-! ## Claim C3

The claim describes the catalog as having 18 entries (English plus "the 17
listed Indic languages"), but the source dictionary has 17 entries: English
plus the 16 Indic languages Hindi, Bengali, Tamil, Telugu, Marathi,
Gujarati, Kannada, Malayalam, Punjabi, Oriya, Assamese, Urdu, Sanskrit,
Kashmiri, Nepali, Sinhala (the claim itself lists only these 16).  The
subset and membership characterization parts of the claim hold. -/

/-- C3 counterexample: the fixed catalog of `detect_languages_in_content`
has 17 entries, not 18. -/
theorem c3_counterexample :
    language_indicators.length = 17 ∧ ¬ languageKeys.length = 18 := by decide

/-- C3 (amended to the 17-entry catalog): for arbitrary text input the
detected language set is a subset of the fixed 17-entry catalog (English
plus 16 Indic languages), and a language is detected exactly when one of
its lexical indicators (all of which are already case-folded) occurs as a
substring of the case-folded content. -/
theorem c3_detected_languages_subset_catalog (content : String) :
    (∀ l ∈ detect_languages_in_content content, l ∈ languageKeys)
    ∧ languageKeys.length = 17
    ∧ (∀ lang : String, lang ∈ detect_languages_in_content content ↔
        ∃ inds, (lang, inds) ∈ language_indicators ∧
          ∃ ind ∈ inds, pyIn ind (pyLower content) = true)
    ∧ (∀ li ∈ language_indicators, ∀ ind ∈ li.2, pyLower ind = ind) := by
  refine ⟨?_, by decide, fun lang => mem_detect_iff content lang, by decide⟩
  intro l hl
  obtain ⟨li, hmem, rfl⟩ := List.mem_map.1 hl
  exact List.mem_map_of_mem _ (List.mem_filter.1 hmem).1

/-- C3 witness: at the concrete content `hello`, the detected language
`english` lies in the catalog. -/
theorem c3_witness : "english" ∈ languageKeys :=
  (c3_detected_languages_subset_catalog "hello").1 "english" (by decide)

/-! ## Claim C10 -/

/-- C10: any content containing `hi` (case-insensitively) — also inside an
ordinary English word — is detected as containing Hindi; in general every
catalog indicator fires on any substring occurrence in the case-folded
content, with no word-boundary or script requirement. -/
theorem c10_substring_indicators_fire :
    (∀ content : String, pyIn "hi" (pyLower content) = true →
      "hindi" ∈ detect_languages_in_content content)
    ∧ (∀ (content lang ind : String) (inds : List String),
        (lang, inds) ∈ language_indicators → ind ∈ inds →
        pyIn ind (pyLower content) = true →
        lang ∈ detect_languages_in_content content) := by
  have hgen : ∀ (content lang ind : String) (inds : List String),
      (lang, inds) ∈ language_indicators → ind ∈ inds →
      pyIn ind (pyLower content) = true →
      lang ∈ detect_languages_in_content content := by
    intro content lang ind inds hcat hind hfind
    exact (mem_detect_iff content lang).2 ⟨inds, hcat, ind, hind, hfind⟩
  refine ⟨fun content h => ?_, hgen⟩
  exact hgen content "hindi" "hi"
    ["hi", "हिंदी", "नमस्ते", "धन्यवाद", "कृपया", "स्वागत", "अलविदा"]
    (by decide) (by decide) h

/-- C10 witness: the English word `This` is detected as containing Hindi,
through the `hi` indicator occurring inside it. -/
theorem c10_witness : "hindi" ∈ detect_languages_in_content "This" :=
  c10_substring_indicators_fire.1 "This" (by decide)

/-! ## Claim C5 -/

/-- Bucket membership characterization for `find_translation_files`. -/
lemma mem_bucket_iff (fs : FileSystem) (f : FSFile) (b : Bucket) :
    f ∈ (find_translation_files fs).bucket b ↔
      f ∈ fs ∧ visibleToTranslationWalk f = true ∧ classifyTranslation f.name = some b := by
  cases b <;>
    simp [find_translation_files, TransFiles.bucket, List.mem_filter, Bool.and_eq_true,
      decide_eq_true_eq, and_assoc]

/-- C5: the translation-file classifier considers exactly the files outside
hidden directories, assigns each to at most one of the five buckets (the
`elif` chain tests the buckets in a fixed order), and assigns the
keyword-qualified buckets (`json_translations`, `yaml_translations`) only
to files with the matching extension whose name contains one of the
keywords `lang`, `translation`, `locale`, `i18n` case-insensitively. -/
theorem c5_translation_classifier (fs : FileSystem) (f : FSFile) :
    (∀ b₁ b₂ : Bucket, f ∈ (find_translation_files fs).bucket b₁ →
      f ∈ (find_translation_files fs).bucket b₂ → b₁ = b₂)
    ∧ (∀ b : Bucket, f ∈ (find_translation_files fs).bucket b ↔
        f ∈ fs ∧ visibleToTranslationWalk f = true ∧ classifyTranslation f.name = some b)
    ∧ (classifyTranslation f.name = some .jsonT →
        pyEndsWith f.name ".json" = true ∧ hasTransKeyword f.name = true)
    ∧ (classifyTranslation f.name = some .yamlT →
        (pyEndsWith f.name ".yml" = true ∨ pyEndsWith f.name ".yaml" = true)
          ∧ hasTransKeyword f.name = true) := by
  refine ⟨?_, mem_bucket_iff fs f, ?_, ?_⟩
  · intro b₁ b₂ h₁ h₂
    have e₁ := ((mem_bucket_iff fs f b₁).1 h₁).2.2
    have e₂ := ((mem_bucket_iff fs f b₂).1 h₂).2.2
    exact Option.some.inj (e₁.symm.trans e₂)
  · intro h
    rw [classifyTranslation] at h
    split_ifs at h with h1 h2 h3 h4 h5 <;> simp_all
  · intro h
    rw [classifyTranslation] at h
    split_ifs at h with h1 h2 h3 h4 h5 <;> simp_all

/-- C5 witness: the concrete file `app_lang.json` at the snapshot root is
assigned to the `json_translations` bucket. -/
theorem c5_witness :
    (⟨[], "app_lang.json", some ""⟩ : FSFile) ∈
      (find_translation_files [⟨[], "app_lang.json", some ""⟩]).bucket .jsonT :=
  ((c5_translation_classifier [⟨[], "app_lang.json", some ""⟩]
    ⟨[], "app_lang.json", some ""⟩).2.1 .jsonT).2 (by refine ⟨by decide, by decide, by decide⟩)

/-! ## Claim C7 -/

/-- Does the named root manifest exist, read successfully, and contain the
package name case-insensitively? -/
def manifestHasPackage (fs : FileSystem) (m p : String) : Bool :=
  match rootLookup fs m with
  | none => false
  | some f =>
      match f.content with
      | none => false
      | some c => pyIn (pyLower p) (pyLower c)

/-- One manifest contributes a catalogued package exactly once when it
contains it. -/
lemma count_manifestPackages (fs : FileSystem) (m p : String)
    (hp : p ∈ i18n_packages_list) :
    List.count p (manifestPackages fs m) = if manifestHasPackage fs m p then 1 else 0 := by
  rw [manifestPackages, manifestHasPackage]
  cases hfind : rootLookup fs m with
  | none => simp
  | some f =>
    cases hc : f.content with
    | none => simp only [hc]; simp
    | some c =>
      simp only [hc]
      by_cases hin : pyIn (pyLower p) (pyLower c) = true
      · have hcf : List.count p
            (List.filter (fun q => pyIn (pyLower q) (pyLower c)) i18n_packages_list)
            = List.count p i18n_packages_list := List.count_filter hin
        rw [if_pos hin, hcf]
        exact List.count_eq_one_of_mem (by decide) hp
      · rw [if_neg hin, List.count_eq_zero]
        intro hmem
        exact hin (List.mem_filter.1 hmem).2

/-- Counting a catalogued package across the manifest fold. -/
lemma count_flatMap_manifests (fs : FileSystem) (p : String)
    (hp : p ∈ i18n_packages_list) (ms : List String) :
    List.count p (ms.flatMap (manifestPackages fs)) =
      (ms.filter (fun m => manifestHasPackage fs m p)).length := by
  induction ms with
  | nil => simp
  | cons m ms ih =>
    rw [List.flatMap_cons, List.count_append, ih, count_manifestPackages fs m p hp]
    by_cases hm : manifestHasPackage fs m p = true
    · have hf : List.filter (fun x => manifestHasPackage fs x p) (m :: ms)
          = m :: List.filter (fun x => manifestHasPackage fs x p) ms :=
        List.filter_cons_of_pos hm
      rw [if_pos hm, hf, List.length_cons]
      omega
    · have hf : List.filter (fun x => manifestHasPackage fs x p) (m :: ms)
          = List.filter (fun x => manifestHasPackage fs x p) ms :=
        List.filter_cons_of_neg (by simpa using hm)
      rw [if_neg hm, hf]
      omega

/-- Adding a file outside the snapshot root changes no root lookup. -/
lemma rootLookup_cons_of_path_ne (g : FSFile) (fs : FileSystem) (m : String)
    (h : g.path ≠ []) : rootLookup (g :: fs) m = rootLookup fs m := by
  rw [rootLookup, rootLookup, List.find?_cons_of_neg]
  simp [h]

/-- C7: the dependency inspector counts each catalogued package once per
root manifest whose content contains it case-insensitively (no
deduplication across manifests, one entry per manifest regardless of how
often the name occurs inside it), and files outside the repository root are
never consulted. -/
theorem c7_dependency_inspector (fs : FileSystem) (p : String)
    (hp : p ∈ i18n_packages_list) :
    List.count p (analyze_requirements_file fs).i18n_packages =
      (manifest_names.filter (fun m => manifestHasPackage fs m p)).length
    ∧ ∀ g : FSFile, g.path ≠ [] →
        analyze_requirements_file (g :: fs) = analyze_requirements_file fs := by
  constructor
  · exact count_flatMap_manifests fs p hp manifest_names
  · intro g hg
    have hlook : rootLookup (g :: fs) = rootLookup fs := by
      funext m
      exact rootLookup_cons_of_path_ne g fs m hg
    have hpkgs : manifestPackages (g :: fs) = manifestPackages fs := by
      funext m
      rw [manifestPackages, manifestPackages, hlook]
    rw [analyze_requirements_file, analyze_requirements_file, hlook, hpkgs]

/-- C7 witness: a root `requirements.txt` and a root `Pipfile` each
containing `streamlit-i18n` (the latter in different case) contribute two
occurrences in total — one per manifest. -/
theorem c7_witness :
    List.count "streamlit-i18n"
      (analyze_requirements_file
        [⟨[], "requirements.txt", some "streamlit-i18n"⟩,
         ⟨[], "Pipfile", some "Streamlit-I18N==1.0"⟩]).i18n_packages =
      (manifest_names.filter (fun m => manifestHasPackage
        [⟨[], "requirements.txt", some "streamlit-i18n"⟩,
         ⟨[], "Pipfile", some "Streamlit-I18N==1.0"⟩] m "streamlit-i18n")).length :=
  (c7_dependency_inspector
    [⟨[], "requirements.txt", some "streamlit-i18n"⟩,
     ⟨[], "Pipfile", some "Streamlit-I18N==1.0"⟩]
    "streamlit-i18n" (by decide)).1

/-! ## Claim C8 -/

/-- C8: recommendation generation is a deterministic branch on the
classification — a non-multilingual report gets exactly the four standard
improvement suggestions; a multilingual report gets the
dependency-documentation suggestion iff no i18n package was found, the
translation-format suggestion iff no translation bucket is non-empty, and
always the two fixed Unicode/testing suggestions, in that order. -/
theorem c8_recommendations_branch (fs : FileSystem) :
    ((generate_multilingual_report fs).is_multilingual = false →
      (generate_multilingual_report fs).recommendations = recsNotMultilingual)
    ∧ ((generate_multilingual_report fs).is_multilingual = true →
      (generate_multilingual_report fs).recommendations =
        (if (generate_multilingual_report fs).requirements_analysis.i18n_packages.isEmpty
          then [recDocumentDeps] else [])
        ++ (if anyTranslationFiles (generate_multilingual_report fs).translation_files
          then [] else [recTranslationFormats])
        ++ recsAlwaysMultilingual) := by
  simp only [generate_multilingual_report]
  constructor
  · intro h
    rw [h]
    simp
  · intro h
    rw [h]
    simp

/-- C8 witness: the empty repository is classified not multilingual and
receives exactly the four standard suggestions. -/
theorem c8_witness :
    (generate_multilingual_report []).recommendations = recsNotMultilingual :=
  (c8_recommendations_branch []).1 (by decide)

/-! ## Claim C2

The claim is false on the code: with zero candidate files the pattern and
language contributions are 0, but the translation-file and manifest
detectors do not depend on the candidate files, so the score need not be 0.
A repository holding nothing but one `.po` file has no candidate file yet
scores 30 and is classified multilingual. -/

/-- C2 counterexample: a snapshot containing only the file `m.po` has zero
candidate files, yet its report scores 30 and classifies multilingual. -/
theorem c2_counterexample :
    find_streamlit_files [⟨[], "m.po", some ""⟩] = []
    ∧ (generate_multilingual_report [⟨[], "m.po", some ""⟩]).streamlit_files = []
    ∧ (generate_multilingual_report [⟨[], "m.po", some ""⟩]).confidence_score = 30
    ∧ (generate_multilingual_report [⟨[], "m.po", some ""⟩]).is_multilingual = true := by
  refine ⟨by decide, by decide, by decide, by decide⟩

/-- C2 (amended: the translation-file and dependency signals must also be
absent, since they are independent of candidate-file discovery): a
repository with zero candidate files, no translation-file bucket entries
and no recognized i18n package reports `candidate_files = []`,
`confidence_score = 0` and `is_multilingual = false`. -/
theorem c2_empty_discovery (fs : FileSystem)
    (h1 : find_streamlit_files fs = [])
    (h2 : anyTranslationFiles (find_translation_files fs) = false)
    (h3 : (analyze_requirements_file fs).i18n_packages = []) :
    (generate_multilingual_report fs).streamlit_files = []
    ∧ (generate_multilingual_report fs).confidence_score = 0
    ∧ (generate_multilingual_report fs).is_multilingual = false := by
  simp only [generate_multilingual_report, h1, h2, h3]
  simp [allLanguages]

/-- C2 witness: the empty repository satisfies all three emptiness
hypotheses and reports score 0, not multilingual. -/
theorem c2_witness :
    (generate_multilingual_report []).streamlit_files = []
    ∧ (generate_multilingual_report []).confidence_score = 0
    ∧ (generate_multilingual_report []).is_multilingual = false :=
  c2_empty_discovery [] (by decide) (by decide) (by decide)

/-! ## Claim C6

The claim is false on the code as stated: pattern analysis runs only on
discovered candidate files (`.py` files whose content mentions the
framework), so a repository whose gettext-importing file is not a candidate
gets no `gettext` pattern despite the import, and with only the `.po`
contribution scores 30.  Restricted to candidate files the claim holds. -/

/-- C6 counterexample: `a.py` contains the gettext import `import gettext`
and `m.po` sits in the tree, but `a.py` has no framework marker, so it is
not a candidate file: the report's pattern matches are empty and the
confidence score is 30, not ≥ 70. -/
theorem c6_counterexample :
    regexFound reGettextImport "import gettext" = true
    ∧ (generate_multilingual_report
        [⟨[], "a.py", some "import gettext"⟩, ⟨[], "m.po", some ""⟩]).i18n_patterns = []
    ∧ (generate_multilingual_report
        [⟨[], "a.py", some "import gettext"⟩, ⟨[], "m.po", some ""⟩]).translation_files.po_files
        = [⟨[], "m.po", some ""⟩]
    ∧ (generate_multilingual_report
        [⟨[], "a.py", some "import gettext"⟩, ⟨[], "m.po", some ""⟩]).confidence_score = 30 := by
  refine ⟨by decide, by decide, by decide, by decide⟩

/-- The gettext category of `analyze_i18n_patterns` is present and
non-empty whenever a gettext import pattern matches the content. -/
lemma analyze_has_gettext (c : String)
    (h : regexFound reGettextImport c = true ∨ regexFound reGettextFromImport c = true) :
    ∃ subs, ("gettext", subs) ∈ analyze_i18n_patterns (some c) ∧ subs ≠ [] := by
  have himp : "imports" ∈ subtypesFound gettextSubtypes c := by
    refine List.mem_map.2 ⟨("imports", [reGettextImport, reGettextFromImport]), ?_, rfl⟩
    refine List.mem_filter.2 ⟨by rw [gettextSubtypes]; exact List.mem_cons_self _ _, ?_⟩
    rcases h with h | h <;> simp [h]
  have hne : subtypesFound gettextSubtypes c ≠ [] := List.ne_nil_of_mem himp
  refine ⟨subtypesFound gettextSubtypes c, ?_, hne⟩
  rw [analyze_i18n_patterns]
  refine List.mem_filter.2 ⟨?_, ?_⟩
  · refine List.mem_map.2 ⟨("gettext", gettextSubtypes), ?_, rfl⟩
    rw [i18nPatterns]
    exact List.mem_cons_self _ _
  · simpa using hne

/-- The pattern-match field of the report, unfolded. -/
lemma report_i18n_patterns (fs : FileSystem) :
    (generate_multilingual_report fs).i18n_patterns =
      ((find_streamlit_files fs).map (fun f => (f, analyze_i18n_patterns f.content))).filter
        (fun p => !p.2.isEmpty) := rfl

/-- The translation-file field of the report, unfolded. -/
lemma report_translation_files (fs : FileSystem) :
    (generate_multilingual_report fs).translation_files = find_translation_files fs := rfl

/-- The confidence-score field of the report, unfolded. -/
lemma report_confidence_score (fs : FileSystem) :
    (generate_multilingual_report fs).confidence_score =
      min ((if (((find_streamlit_files fs).map
              (fun f => (f, analyze_i18n_patterns f.content))).filter
              (fun p => !p.2.isEmpty)).isEmpty then 0 else 40)
        + (if anyTranslationFiles (find_translation_files fs) then 30 else 0)
        + (if (analyze_requirements_file fs).i18n_packages.isEmpty then 0 else 20)
        + (if (allLanguages (find_streamlit_files fs)).length > 1 then 10 else 0)) 100 := rfl

/-- C6 (amended: the gettext-importing file must be a discovered candidate
file, since pattern analysis runs only on candidate files): for every
repository containing a candidate file whose content matches a gettext
importing pattern and a `.po` file outside hidden directories, the report's
pattern matches contain a non-empty `gettext` category for that file, the
`po_files` bucket is non-empty, and the confidence score is at least 70. -/
theorem c6_gettext_candidate (fs : FileSystem) (f g : FSFile) (c : String)
    (hf : f ∈ fs) (hcand : isStreamlitFile f = true) (hc : f.content = some c)
    (himp : regexFound reGettextImport c = true ∨ regexFound reGettextFromImport c = true)
    (hg : g ∈ fs) (hvg : visibleToTranslationWalk g = true)
    (hpo : pyEndsWith g.name ".po" = true) :
    (∃ ps, (f, ps) ∈ (generate_multilingual_report fs).i18n_patterns ∧
      ∃ subs, ("gettext", subs) ∈ ps ∧ subs ≠ [])
    ∧ (generate_multilingual_report fs).translation_files.po_files ≠ []
    ∧ 70 ≤ (generate_multilingual_report fs).confidence_score := by
  obtain ⟨subs, hsub, hsubne⟩ := analyze_has_gettext c himp
  have hfc : f ∈ find_streamlit_files fs := List.mem_filter.2 ⟨hf, hcand⟩
  have hanne : analyze_i18n_patterns f.content ≠ [] := by
    rw [hc]
    exact List.ne_nil_of_mem hsub
  have hmemPat : (f, analyze_i18n_patterns f.content) ∈
      ((find_streamlit_files fs).map (fun f => (f, analyze_i18n_patterns f.content))).filter
        (fun p => !p.2.isEmpty) := by
    refine List.mem_filter.2 ⟨List.mem_map_of_mem _ hfc, ?_⟩
    simpa using hanne
  have hgpo : g ∈ (find_translation_files fs).po_files := by
    refine List.mem_filter.2 ⟨hg, ?_⟩
    have hcl : classifyTranslation g.name = some .po := by
      rw [classifyTranslation, if_pos hpo]
    rw [hvg, hcl]
    decide
  refine ⟨⟨analyze_i18n_patterns f.content, ?_, ?_⟩, ?_, ?_⟩
  · rw [report_i18n_patterns]
    exact hmemPat
  · rw [hc]
    exact ⟨subs, hsub, hsubne⟩
  · rw [report_translation_files]
    exact List.ne_nil_of_mem hgpo
  · rw [report_confidence_score]
    have h40 : (((find_streamlit_files fs).map
        (fun f => (f, analyze_i18n_patterns f.content))).filter
        (fun p => !p.2.isEmpty)).isEmpty = false :=
      List.isEmpty_eq_false.2 (List.ne_nil_of_mem hmemPat)
    have h30 : anyTranslationFiles (find_translation_files fs) = true := by
      rw [anyTranslationFiles]
      have : (find_translation_files fs).po_files.isEmpty = false :=
        List.isEmpty_eq_false.2 (List.ne_nil_of_mem hgpo)
      rw [this]
      rfl
    rw [h40, h30]
    rcases natIte_cases ((analyze_requirements_file fs).i18n_packages.isEmpty = true) 0 20
        with h20 | h20 <;>
      rcases natIte_cases ((allLanguages (find_streamlit_files fs)).length > 1) 10 0
        with h10 | h10 <;>
      rw [h20, h10] <;> decide

/-- C6 witness: a candidate file `app.py` importing both streamlit and
gettext together with a root `hi.po` file yields the non-empty gettext
category, a non-empty `po_files` bucket, and a score of at least 70. -/
theorem c6_witness :
    (∃ ps, ((⟨[], "app.py", some "import streamlit\nimport gettext"⟩ : FSFile), ps) ∈
      (generate_multilingual_report
        [⟨[], "app.py", some "import streamlit\nimport gettext"⟩,
         ⟨[], "hi.po", some ""⟩]).i18n_patterns ∧
      ∃ subs, ("gettext", subs) ∈ ps ∧ subs ≠ [])
    ∧ (generate_multilingual_report
        [⟨[], "app.py", some "import streamlit\nimport gettext"⟩,
         ⟨[], "hi.po", some ""⟩]).translation_files.po_files ≠ []
    ∧ 70 ≤ (generate_multilingual_report
        [⟨[], "app.py", some "import streamlit\nimport gettext"⟩,
         ⟨[], "hi.po", some ""⟩]).confidence_score :=
  c6_gettext_candidate
    [⟨[], "app.py", some "import streamlit\nimport gettext"⟩, ⟨[], "hi.po", some ""⟩]
    ⟨[], "app.py", some "import streamlit\nimport gettext"⟩
    ⟨[], "hi.po", some ""⟩
    "import streamlit\nimport gettext"
    (by decide) (by decide) rfl (Or.inl (by decide)) (by decide) (by decide) (by decide)

/-! ## Claim C9

The per-file and per-archive error absorption holds, and no embedded
operation escapes with anything but its declared result.  The claim's
parenthetical is wrong for manifests, however: `analyze_requirements_file`
records a manifest as present before attempting to read it, so a manifest
whose read fails still contributes its name to `requirements_files` (it
contributes no packages). -/

/-- C9 counterexample: a root `requirements.txt` whose read fails still
appears in `requirements_files` — the failed item does contribute to the
detector's output, unlike the claim states. -/
theorem c9_counterexample :
    (analyze_requirements_file [⟨[], "requirements.txt", none⟩]).requirements_files
      = ["requirements.txt"]
    ∧ (analyze_requirements_file [⟨[], "requirements.txt", none⟩]).i18n_packages = []
    ∧ analyze_requirements_file [⟨[], "requirements.txt", none⟩]
        ≠ analyze_requirements_file [] := by
  refine ⟨by decide, by decide, by decide⟩

/-- C9 (amended: a failed manifest read contributes no packages but its
filename is still recorded as present): every failed file read is absorbed
— a candidate-discovery read failure drops the file from the candidates, a
pattern-analysis read failure yields the empty pattern result, a
language-detection read failure contributes no languages, and a manifest
read failure contributes no packages while the manifest remains listed as
present. -/
theorem c9_read_failures_absorbed :
    (∀ f : FSFile, f.content = none →
      isStreamlitFile f = false ∧ analyze_i18n_patterns f.content = []
        ∧ fileLanguages f = [])
    ∧ (∀ (fs : FileSystem) (m : String) (f : FSFile),
        rootLookup fs m = some f → f.content = none →
        manifestPackages fs m = [] ∧
          (m ∈ manifest_names → m ∈ (analyze_requirements_file fs).requirements_files)) := by
  constructor
  · intro f h
    refine ⟨?_, by rw [h, analyze_i18n_patterns], by rw [fileLanguages, h]⟩
    rw [isStreamlitFile, h]
    simp
  · intro fs m f hlook hcont
    constructor
    · simp [manifestPackages, hlook, hcont]
    · intro hm
      refine List.mem_filter.2 ⟨hm, ?_⟩
      rw [hlook]
      rfl

/-- C9 witness: the unreadable root `requirements.txt` contributes no
packages yet is listed as present. -/
theorem c9_witness :
    manifestPackages [⟨[], "requirements.txt", none⟩] "requirements.txt" = []
    ∧ "requirements.txt" ∈
        (analyze_requirements_file [⟨[], "requirements.txt", none⟩]).requirements_files := by
  have h := c9_read_failures_absorbed.2 [⟨[], "requirements.txt", none⟩]
    "requirements.txt" ⟨[], "requirements.txt", none⟩ rfl rfl
  exact ⟨h.1, h.2 (by decide)⟩

/-! ## Claim C4

The strategy order holds: the direct clone is always attempted first, and
the archive candidates are exactly the four declared URLs, tried in
declared order, stopping at the first candidate that succeeds.  But a
candidate succeeds only if its HTTP 200 payload also saves and extracts:
the loop body's `except Exception: continue` covers the extraction, so a
200 response whose extraction fails does NOT short-circuit — the next
candidate is still tried, contradicting the claim's final part. -/

/-- The archive loop's trace is the map of a prefix of the candidate list:
candidates are tried in declared order with no skipping. -/
lemma tryArchives_trace_take (env : FetchEnv) (urls : List String) :
    (tryArchives env urls).2 =
      ((urls.take (tryArchives env urls).2.length).map Attempt.httpGet) := by
  induction urls with
  | nil => rfl
  | cons u rest ih =>
    cases h : env.archive u with
    | ok200 => simp [tryArchives, h]
    | ok200ExtractFail =>
      simp only [tryArchives, h, List.length_cons, List.take_succ_cons, List.map_cons]
      exact congrArg (List.cons _) ih
    | httpOther =>
      simp only [tryArchives, h, List.length_cons, List.take_succ_cons, List.map_cons]
      exact congrArg (List.cons _) ih
    | reqError =>
      simp only [tryArchives, h, List.length_cons, List.take_succ_cons, List.map_cons]
      exact congrArg (List.cons _) ih

/-- Every non-final attempt of the archive loop was not a fully successful
one: the loop stops at the first success. -/
lemma tryArchives_no_ok200_before_last (env : FetchEnv) (urls : List String) :
    ∀ u, Attempt.httpGet u ∈ (tryArchives env urls).2.dropLast →
      env.archive u ≠ ArchiveOutcome.ok200 := by
  induction urls with
  | nil => intro u hu; simp [tryArchives] at hu
  | cons u0 rest ih =>
    intro u hu
    cases h : env.archive u0 with
    | ok200 => simp [tryArchives, h] at hu
    | ok200ExtractFail =>
      simp only [tryArchives, h] at hu
      cases hX : (tryArchives env rest).2 with
      | nil => rw [hX] at hu; simp at hu
      | cons a t =>
        rw [hX, List.dropLast_cons₂] at hu
        rcases List.mem_cons.1 hu with he | hm
        · intro hC
          have : u = u0 := by injection he
          rw [this, h] at hC
          exact absurd hC (by decide)
        · exact ih u (by rw [hX]; exact hm)
    | httpOther =>
      simp only [tryArchives, h] at hu
      cases hX : (tryArchives env rest).2 with
      | nil => rw [hX] at hu; simp at hu
      | cons a t =>
        rw [hX, List.dropLast_cons₂] at hu
        rcases List.mem_cons.1 hu with he | hm
        · intro hC
          have : u = u0 := by injection he
          rw [this, h] at hC
          exact absurd hC (by decide)
        · exact ih u (by rw [hX]; exact hm)
    | reqError =>
      simp only [tryArchives, h] at hu
      cases hX : (tryArchives env rest).2 with
      | nil => rw [hX] at hu; simp at hu
      | cons a t =>
        rw [hX, List.dropLast_cons₂] at hu
        rcases List.mem_cons.1 hu with he | hm
        · intro hC
          have : u = u0 := by injection he
          rw [this, h] at hC
          exact absurd hC (by decide)
        · exact ih u (by rw [hX]; exact hm)

/-- When the archive loop succeeds, its last attempt is the fully
successful candidate. -/
lemma tryArchives_success_last (env : FetchEnv) (urls : List String) :
    (tryArchives env urls).1 = true →
      ∃ u, (tryArchives env urls).2.getLast? = some (Attempt.httpGet u)
        ∧ env.archive u = ArchiveOutcome.ok200 := by
  induction urls with
  | nil => intro h; simp [tryArchives] at h
  | cons u0 rest ih =>
    intro hres
    cases h : env.archive u0 with
    | ok200 => exact ⟨u0, by simp [tryArchives, h], h⟩
    | ok200ExtractFail =>
      simp only [tryArchives, h] at hres ⊢
      obtain ⟨u, hlast, h200⟩ := ih hres
      refine ⟨u, ?_, h200⟩
      cases hX : (tryArchives env rest).2 with
      | nil => rw [hX] at hlast; simp at hlast
      | cons a t =>
        rw [hX] at hlast
        rw [List.getLast?_cons_cons]
        exact hlast
    | httpOther =>
      simp only [tryArchives, h] at hres ⊢
      obtain ⟨u, hlast, h200⟩ := ih hres
      refine ⟨u, ?_, h200⟩
      cases hX : (tryArchives env rest).2 with
      | nil => rw [hX] at hlast; simp at hlast
      | cons a t =>
        rw [hX] at hlast
        rw [List.getLast?_cons_cons]
        exact hlast
    | reqError =>
      simp only [tryArchives, h] at hres ⊢
      obtain ⟨u, hlast, h200⟩ := ih hres
      refine ⟨u, ?_, h200⟩
      cases hX : (tryArchives env rest).2 with
      | nil => rw [hX] at hlast; simp at hlast
      | cons a t =>
        rw [hX] at hlast
        rw [List.getLast?_cons_cons]
        exact hlast

/-- C4 counterexample: with the first archive candidate answering 200 but
failing extraction and the second answering 200 with successful extraction,
the fetcher issues a further attempt after the first HTTP 200 response —
the first 200 does not short-circuit. -/
theorem c4_counterexample :
    responds200
      ((fun u => if u = "https://gitlab.com/a/b/-/archive/main/b-main.zip"
          then ArchiveOutcome.ok200ExtractFail else ArchiveOutcome.ok200)
        "https://gitlab.com/a/b/-/archive/main/b-main.zip") = true
    ∧ (clone_gitlab_repo "https://gitlab.com/a/b"
        ⟨CloneOutcome.failure,
          fun u => if u = "https://gitlab.com/a/b/-/archive/main/b-main.zip"
            then ArchiveOutcome.ok200ExtractFail else ArchiveOutcome.ok200⟩).2 =
      [ Attempt.gitClone "https://gitlab.com/a/b.git"
      , Attempt.httpGet "https://gitlab.com/a/b/-/archive/main/b-main.zip"
      , Attempt.httpGet "https://gitlab.com/a/b/-/archive/master/b-master.zip" ] := by
  refine ⟨by decide, by decide⟩

/-- C4 (amended: short-circuiting happens at the first HTTP 200 response
whose payload also saves and extracts successfully; a 200 response whose
extraction fails is skipped like any other failed candidate): the direct
clone is always the first attempt; a successful clone ends the run at once;
the archive attempts are an in-order prefix of exactly the four declared
candidate URLs; no attempt before the last one was fully successful; and
when the fetch succeeds via the archive fallback, its last attempt is a
fully successful candidate. -/
theorem c4_fetch_attempt_order (url : String) (env : FetchEnv) :
    (clone_gitlab_repo url env).2.head? = some (Attempt.gitClone (normalizeGitUrl url))
    ∧ (possible_urls url).length = 4
    ∧ (env.cloneResult = CloneOutcome.success →
        clone_gitlab_repo url env = (true, [Attempt.gitClone (normalizeGitUrl url)]))
    ∧ (clone_gitlab_repo url env).2.tail =
        ((possible_urls url).take (clone_gitlab_repo url env).2.tail.length).map
          Attempt.httpGet
    ∧ (∀ u, Attempt.httpGet u ∈ (clone_gitlab_repo url env).2.dropLast →
        env.archive u ≠ ArchiveOutcome.ok200)
    ∧ ((clone_gitlab_repo url env).1 = true → env.cloneResult ≠ CloneOutcome.success →
        ∃ u, (clone_gitlab_repo url env).2.getLast? = some (Attempt.httpGet u)
          ∧ env.archive u = ArchiveOutcome.ok200) := by
  cases hcr : env.cloneResult with
  | success =>
    have hclone : clone_gitlab_repo url env =
        (true, [Attempt.gitClone (normalizeGitUrl url)]) := by
      simp [clone_gitlab_repo, hcr]
    rw [hclone]
    refine ⟨rfl, rfl, fun _ => rfl, rfl, ?_, ?_⟩
    · intro u hu
      simp at hu
    · intro _ hne
      exact absurd rfl hne
  | fatalError =>
    have hclone : clone_gitlab_repo url env =
        (false, [Attempt.gitClone (normalizeGitUrl url)]) := by
      simp [clone_gitlab_repo, hcr]
    rw [hclone]
    refine ⟨rfl, rfl, ?_, rfl, ?_, ?_⟩
    · intro hs
      exact absurd hs (by decide)
    · intro u hu
      simp at hu
    · intro hres _
      simp at hres
  | failure =>
    by_cases hq : archiveQualifies url = true ∧ (urlParts url).length ≥ 2
    · have hclone : clone_gitlab_repo url env =
          ((tryArchives env (possible_urls url)).1,
            Attempt.gitClone (normalizeGitUrl url) ::
              (tryArchives env (possible_urls url)).2) := by
        simp [clone_gitlab_repo, hcr, hq]
      rw [hclone]
      refine ⟨rfl, rfl, ?_, ?_, ?_, ?_⟩
      · intro hs
        exact absurd hs (by decide)
      · exact tryArchives_trace_take env (possible_urls url)
      · intro u hu
        cases hX : (tryArchives env (possible_urls url)).2 with
        | nil => rw [hX] at hu; simp at hu
        | cons a t =>
          rw [hX, List.dropLast_cons₂] at hu
          rcases List.mem_cons.1 hu with he | hm
          · exact absurd he (by simp)
          · exact tryArchives_no_ok200_before_last env (possible_urls url) u
              (by rw [hX]; exact hm)
      · intro hres _
        have hres' : (tryArchives env (possible_urls url)).1 = true := hres
        obtain ⟨u, hlast, h200⟩ := tryArchives_success_last env (possible_urls url) hres'
        refine ⟨u, ?_, h200⟩
        cases hX : (tryArchives env (possible_urls url)).2 with
        | nil => rw [hX] at hlast; simp at hlast
        | cons a t =>
          rw [hX] at hlast
          rw [List.getLast?_cons_cons]
          exact hlast
    · have hclone : clone_gitlab_repo url env =
          (false, [Attempt.gitClone (normalizeGitUrl url)]) := by
        simp [clone_gitlab_repo, hcr, hq]
      rw [hclone]
      refine ⟨rfl, rfl, ?_, rfl, ?_, ?_⟩
      · intro hs
        exact absurd hs (by decide)
      · intro u hu
        simp at hu
      · intro hres _
        simp at hres

/-- C4 witness: with a successful direct clone, the whole run is the single
clone attempt and returns success. -/
theorem c4_witness :
    clone_gitlab_repo "https://gitlab.com/x/y" ⟨CloneOutcome.success, fun _ => .ok200⟩ =
      (true, [Attempt.gitClone (normalizeGitUrl "https://gitlab.com/x/y")]) :=
  (c4_fetch_attempt_order "https://gitlab.com/x/y"
    ⟨CloneOutcome.success, fun _ => .ok200⟩).2.2.1 rfl

end GitlabMC
